import Mathlib

/-!
# Session pairing and broadcast loops of `connection.go`

A shallow embedding of `connection.go` (package `main`): the registry
`connections`, the pairing operation `getConnectionPairWithEmptySlot`, the accept
sequence of `wsHandler.ServeHTTP`, and the `reader` / `writer` loops of a
`connection`.

Conventions of the embedding

* A `*connectionPair` is the position of the pair in the registry `connections`
  (the registry only ever grows by `append`, so a position names the same pair for
  the rest of the run); a function that returns a `*connectionPair` returns that
  position.
* The global `connections` is threaded through: a function that reads or appends
  to it takes the registry and returns the registry it leaves behind.
* Channels and the websocket are the sequences of values they deliver; sends,
  writes and calls into the game state are recorded as events.
-/

namespace Waffles

/-! ## Data model -/

/-- Modelled from the spec: the `gameState` type is declared outside
`connection.go`. Only the two fields that `connection.go` reads or writes are
named (`StatusMessage`, compared with `resetWaitPaired`, and `numberOfPlayers`,
set to 1 on revival); every other field is kept in `other`. The type `σ` of the
status is a parameter. -/
structure gameState (σ ρ : Type) where
  StatusMessage : σ
  numberOfPlayers : Int
  other : ρ
deriving DecidableEq, Repr

/-- The `connection` struct. `doBroadcast` is the identity of the channel made by
`make(chan bool)` (one per connection, it also stands for the identity of the
`*connection`), `cp` is the position of the pair in the registry, `playerNum` the
slot handed out by `getConnectionPairWithEmptySlot`. -/
structure connection where
  doBroadcast : Nat
  cp : Nat
  playerNum : Nat
deriving DecidableEq, Repr

/-- Modelled from the spec: the `connectionPair` type is declared outside
`connection.go`. It holds the seated connections (`len(h.connections)` is the
number of seated participants, an ordered collection of 0 to 2 participants in
the spec) and the shared game state `gs`. The channel `receiveMove` carries no
data and is represented by the `notify` events of the loops below. -/
structure connectionPair (σ ρ : Type) where
  connections : List connection
  gs : gameState σ ρ
deriving DecidableEq, Repr

/-- Modelled from the spec: `newConnectionPair` is defined outside
`connection.go`. A new session has zero seated participants; `gs0` is the game
state it starts with. -/
def newConnectionPair {σ ρ : Type} (gs0 : gameState σ ρ) : connectionPair σ ρ :=
  { connections := [], gs := gs0 }

/-- Modelled from the spec: `addConnection` is defined outside `connection.go`.
`addParticipant(p)` appends `p` to the participants of the session and does
nothing else. -/
def addConnection {σ ρ : Type} (h : connectionPair σ ρ) (c : connection) :
    connectionPair σ ρ :=
  { h with connections := h.connections ++ [c] }

/-- Modelled from the spec: `removeConnection` is defined outside
`connection.go`. `removeParticipant(p)` removes `p` from the participants of the
session; removing a participant that is not seated is a no-op. -/
def removeConnection {σ ρ : Type} (h : connectionPair σ ρ) (c : connection) :
    connectionPair σ ρ :=
  { h with connections := h.connections.filter (fun d => decide (d ≠ c)) }

/-! ## `getConnectionPairWithEmptySlot` -/

/-- The `for _, h := range connections` loop of `getConnectionPairWithEmptySlot`:
`i` is the position of the head of the list in the registry. It returns at the
first pair with `len(h.connections) == 1`, with that position and
`len(h.connections)`; `none` when the loop falls through. -/
def findPair {σ ρ : Type} : List (connectionPair σ ρ) → Nat → Option (Nat × Nat)
  | [], _ => none
  | h :: rest, i =>
    if h.connections.length = 1 then some (i, h.connections.length)
    else findPair rest (i + 1)

/-- The function `getConnectionPairWithEmptySlot`. `gs0` is the game state of a
pair made by `newConnectionPair`. The result is the registry after the call, the
position of the returned pair and the returned slot. -/
def getConnectionPairWithEmptySlot {σ ρ : Type} (gs0 : gameState σ ρ)
    (connections : List (connectionPair σ ρ)) :
    List (connectionPair σ ρ) × Nat × Nat :=
  let sizeBefore := connections.length
  match findPair connections 0 with
  | some (i, n) => (connections, i, n)
  | none =>
    let h := newConnectionPair gs0
    let connections := connections ++ [h]
    (connections, sizeBefore, 0)

/-! ## The accept sequence of `wsHandler.ServeHTTP` -/

/-- Modelled from the spec: the part of the game state's interface that
`connection.go` uses and that is defined outside it. `resetWaitPaired` is the
status constant that `ServeHTTP` compares `StatusMessage` with, `newGameState`
the value of the constructor `newGameState()`, `addPlayer` the effect of the
method `addPlayer` on a game state, `pairState` the game state of a pair made by
`newConnectionPair()`. All four are parameters: nothing is assumed about them. -/
structure Engine (σ ρ : Type) where
  resetWaitPaired : σ
  newGameState : gameState σ ρ
  addPlayer : gameState σ ρ → gameState σ ρ
  pairState : gameState σ ρ

/-- A write through the pointer `c.cp`: the pair at position `i` of the registry
is replaced by `f` of it; every other position is left alone. -/
def updateAt {α : Type} : List α → Nat → (α → α) → List α
  | [], _, _ => []
  | h :: t, 0, f => f h :: t
  | h :: t, i + 1, f => h :: updateAt t i f

/-- Lines 102 to 104 of `ServeHTTP`: `getConnectionPairWithEmptySlot`, the new
`connection` (`d` is the identity of its fresh `doBroadcast` channel) and
`c.cp.addConnection(c)`. Returns the registry and the new connection. -/
def seat {σ ρ : Type} (E : Engine σ ρ) (d : Nat) (reg : List (connectionPair σ ρ)) :
    List (connectionPair σ ρ) × connection :=
  match getConnectionPairWithEmptySlot E.pairState reg with
  | (reg1, cp, pn) =>
    let c : connection := { doBroadcast := d, cp := cp, playerNum := pn }
    (updateAt reg1 cp (fun h => addConnection h c), c)

/-- Lines 109 to 114 of `ServeHTTP`: when the status of the pair's game state is
`resetWaitPaired`, the game state is replaced by `newGameState()` and its
`numberOfPlayers` is set to 1; otherwise the pair is left as it is. -/
def revive {σ ρ : Type} [DecidableEq σ] (E : Engine σ ρ) (h : connectionPair σ ρ) :
    connectionPair σ ρ :=
  if h.gs.StatusMessage = E.resetWaitPaired then
    { h with gs := { E.newGameState with numberOfPlayers := 1 } }
  else h

/-- Line 117 of `ServeHTTP`: `c.cp.gs.addPlayer()`. -/
def informAddPlayer {σ ρ : Type} (E : Engine σ ρ) (h : connectionPair σ ρ) :
    connectionPair σ ρ :=
  { h with gs := E.addPlayer h.gs }

/-- The method `wsHandler.ServeHTTP` up to the broadcast of line 119, as its
effect on the registry. `upgraded` says whether `upgrader.Upgrade` succeeded (the
handler returns at once when it did not); `d` is the identity of the channel of
the new connection. -/
def ServeHTTP {σ ρ : Type} [DecidableEq σ] (E : Engine σ ρ) (upgraded : Bool) (d : Nat)
    (reg : List (connectionPair σ ρ)) : List (connectionPair σ ρ) :=
  if upgraded then
    match seat E d reg with
    | (reg2, c) =>
      let reg3 := updateAt reg2 c.cp (revive E)
      updateAt reg3 c.cp (informAddPlayer E)
  else reg

/-- Sequential accepts: `ServeHTTP` run once for each accepted connection, in
order, every upgrade succeeding and no connection removed in between. -/
def acceptAll {σ ρ : Type} [DecidableEq σ] (E : Engine σ ρ) :
    List Nat → List (connectionPair σ ρ) → List (connectionPair σ ρ)
  | [], reg => reg
  | d :: ds, reg => acceptAll E ds (ServeHTTP E true d reg)

/-! ## The `reader` loop -/

/-- The struct `incomingMessage` (`Type_` is the field `Type`). -/
structure incomingMessage where
  Type_ : String
  Data : String
  ID : Int
deriving DecidableEq, Repr

/-- The variable `message` of `reader`, a `*incomingMessage`: `none` is the nil
pointer (which `json.Unmarshal` stores for the JSON value `null`). -/
abbrev messagePtr := Option incomingMessage

/-- One result of `wsConn.ReadMessage()`: a payload, or `err != nil`. -/
inductive ReadResult where
  | message (payload : String)
  | error
deriving DecidableEq, Repr

/-- What `reader` does to the rest of the program, in order. -/
inductive ReaderEvent where
  | recordMove (m : messagePtr)
  | notify
deriving DecidableEq, Repr

/-- How a run of `reader` over a finite sequence of read results ends:
`terminated` is the `break` at a transport error (the function returns),
`panicked` is `panic(err)`, `reading` means every result was consumed and the
loop is blocked in `ReadMessage`. -/
inductive ReaderExit where
  | terminated
  | panicked
  | reading
deriving DecidableEq, Repr

/-- The method `connection.reader`, run over the results that
`wsConn.ReadMessage()` delivers. `Unmarshal p` is `json.Unmarshal` on the payload
`p` (from `encoding/json`): `none` when it returns an error, otherwise the pointer
it leaves in `message`. -/
def reader (Unmarshal : String → Option messagePtr) :
    List ReadResult → List ReaderEvent × ReaderExit
  | [] => ([], ReaderExit.reading)
  | ReadResult.error :: _ => ([], ReaderExit.terminated)
  | ReadResult.message p :: rest =>
    match Unmarshal p with
    | none => ([], ReaderExit.panicked)
    | some m =>
      ((ReaderEvent.recordMove m :: ReaderEvent.notify :: (reader Unmarshal rest).1),
        (reader Unmarshal rest).2)

/-- The events of `reader` for a sequence of parsed messages: each message is
passed to `recordMove`, and each `recordMove` is followed at once by one send on
`receiveMove`. -/
def recordedAndNotified : List messagePtr → List ReaderEvent
  | [] => []
  | m :: ms => ReaderEvent.recordMove m :: ReaderEvent.notify :: recordedAndNotified ms

/-! ## The `writer` loop -/

/-- Where one call of `getConnectionPairWithEmptySlot` stands, with its locals.
Each constructor is the point before one statement of the function:
`start` before `sizeBefore := len(connections)`; `sized` before the range
expression is evaluated; `ranging sb n i` before the test of the `i`-th pair of
the `n` pairs being ranged over; `found i` before `return h, len(h.connections)`;
`create` before `h := newConnectionPair()`; `appending` before the read of
`connections` in `append(connections, h)`; `writing` before the assignment to
`connections`; `ret` before `return connections[sizeBefore], 0`;
`done cp slot` after the return. -/
inductive Caller (σ ρ : Type) where
  | start
  | sized (sizeBefore : Nat)
  | ranging (sizeBefore n i : Nat)
  | found (i : Nat)
  | create (sizeBefore : Nat)
  | appending (sizeBefore : Nat) (h : connectionPair σ ρ)
  | writing (sizeBefore : Nat) (appended : List (connectionPair σ ρ))
  | ret (sizeBefore : Nat)
  | done (cp slot : Nat)
deriving DecidableEq, Repr

/-- One statement of one call, on the shared registry. A call that has returned
stays where it is. -/
def stepCaller {σ ρ : Type} (gs0 : gameState σ ρ) (reg : List (connectionPair σ ρ)) :
    Caller σ ρ → List (connectionPair σ ρ) × Caller σ ρ
  | Caller.start => (reg, Caller.sized reg.length)
  | Caller.sized sb => (reg, Caller.ranging sb reg.length 0)
  | Caller.ranging sb n i =>
    if i < n then
      match reg[i]? with
      | some h =>
        if h.connections.length = 1 then (reg, Caller.found i)
        else (reg, Caller.ranging sb n (i + 1))
      | none => (reg, Caller.ranging sb n (i + 1))
    else (reg, Caller.create sb)
  | Caller.found i =>
    match reg[i]? with
    | some h => (reg, Caller.done i h.connections.length)
    | none => (reg, Caller.found i)
  | Caller.create sb => (reg, Caller.appending sb (newConnectionPair gs0))
  | Caller.appending sb h => (reg, Caller.writing sb (reg ++ [h]))
  | Caller.writing sb new => (new, Caller.ret sb)
  | Caller.ret sb =>
    match reg[sb]? with
    | some _ => (reg, Caller.done sb 0)
    | none => (reg, Caller.ret sb)
  | Caller.done cp slot => (reg, Caller.done cp slot)

/-- Two calls of `getConnectionPairWithEmptySlot` in flight over one registry. -/
structure TwoCallers (σ ρ : Type) where
  connections : List (connectionPair σ ρ)
  first : Caller σ ρ
  second : Caller σ ρ
deriving DecidableEq, Repr

/-- An interleaving of the two calls: the schedule says, statement by statement,
which call runs next (`false` the first call, `true` the second). -/
def runTwo {σ ρ : Type} (gs0 : gameState σ ρ) :
    List Bool → TwoCallers σ ρ → TwoCallers σ ρ
  | [], s => s
  | false :: sched, s =>
    runTwo gs0 sched
      { s with connections := (stepCaller gs0 s.connections s.first).1,
               first := (stepCaller gs0 s.connections s.first).2 }
  | true :: sched, s =>
    runTwo gs0 sched
      { s with connections := (stepCaller gs0 s.connections s.second).1,
               second := (stepCaller gs0 s.connections s.second).2 }

/-- The states one call goes through, statement by statement, over a registry of
`len` pairs whose first pair with one seated participant is at position `f`. -/
def walk (σ ρ : Type) (len f k : Nat) : Caller σ ρ :=
  if k = 0 then Caller.start
  else if k = 1 then Caller.sized len
  else if k ≤ f + 2 then Caller.ranging len len (k - 2)
  else if k = f + 3 then Caller.found f
  else Caller.done f 1

/-! ## Occupancy predicates -/

/-- Every session of the registry has two seated participants. -/
def AllFull {σ ρ : Type} (reg : List (connectionPair σ ρ)) : Prop :=
  ∀ t ∈ reg, t.connections.length = 2

/-- Every session of the registry has two seated participants, except the last
one, which has one. -/
def HalfLast {σ ρ : Type} (reg : List (connectionPair σ ρ)) : Prop :=
  ∃ pre s, reg = pre ++ [s] ∧ AllFull pre ∧ s.connections.length = 1

/-- Number of sessions of the registry with exactly one seated participant. -/
def singles {σ ρ : Type} (reg : List (connectionPair σ ρ)) : Nat :=
  (reg.filter (fun t => decide (t.connections.length = 1))).length

/-! ## Sample data -/

/-- A sample game state, with status 0. -/
def sampleState : gameState Nat Unit :=
  { StatusMessage := 0, numberOfPlayers := 0, other := () }

/-- A sample session with no seated participant. -/
def vacated : connectionPair Nat Unit :=
  { connections := [], gs := sampleState }

/-- A sample session whose only seated participant has channel `d` and slot `pn`. -/
def halfOpen (d pn : Nat) : connectionPair Nat Unit :=
  { connections := [{ doBroadcast := d, cp := 0, playerNum := pn }], gs := sampleState }

/-- A sample session with two seated participants, channels `d` and `d + 1`, in
slots 0 and 1. -/
def paired (d : Nat) : connectionPair Nat Unit :=
  { connections := [{ doBroadcast := d, cp := 0, playerNum := 0 },
                    { doBroadcast := d + 1, cp := 0, playerNum := 1 }],
    gs := sampleState }

/-- A sample engine: the sentinel status is 7, `addPlayer` counts one more
player. -/
def sampleEngine : Engine Nat Unit :=
  { resetWaitPaired := 7,
    newGameState := { StatusMessage := 1, numberOfPlayers := 0, other := () },
    addPlayer := fun g => { g with numberOfPlayers := g.numberOfPlayers + 1 },
    pairState := sampleState }

/-- A sample `json.Unmarshal`: the empty payload does not parse, any other
payload parses to a move carrying it. -/
def sampleUnmarshal (p : String) : Option messagePtr :=
  if p.length = 0 then none else some (some { Type_ := "move", Data := p, ID := 1 })

/-! ## Lemmas on the scan -/

section Scan

variable {σ ρ : Type}

/-- The scan finds nothing exactly when no pair has one seated participant. -/
theorem findPair_eq_none (l : List (connectionPair σ ρ)) (i : Nat) :
    findPair l i = none ↔ ∀ s ∈ l, s.connections.length ≠ 1 := by
  induction l generalizing i with
  | nil => simp [findPair]
  | cons h rest ih =>
    by_cases hh : h.connections.length = 1
    · simp [findPair, hh]
    · simp [findPair, hh, ih]

/-- The scan stops at the first pair with one seated participant: everything
before it has another number of participants, and the slot it gives is 1. -/
theorem findPair_split (pre : List (connectionPair σ ρ)) (s : connectionPair σ ρ)
    (rest : List (connectionPair σ ρ)) (i : Nat)
    (hpre : ∀ t ∈ pre, t.connections.length ≠ 1) (hs : s.connections.length = 1) :
    findPair (pre ++ s :: rest) i = some (i + pre.length, 1) := by
  induction pre generalizing i with
  | nil => simp [findPair, hs]
  | cons h pre ih =>
    have hh : h.connections.length ≠ 1 := hpre h (by simp)
    have := ih (i + 1) (fun t ht => hpre t (by simp [ht]))
    simp [findPair, hh, this]
    omega

/-- A list holding a pair with one seated participant splits at the first one. -/
theorem exists_first_single (l : List (connectionPair σ ρ))
    (h : ∃ s ∈ l, s.connections.length = 1) :
    ∃ pre s rest, l = pre ++ s :: rest ∧ (∀ t ∈ pre, t.connections.length ≠ 1) ∧
      s.connections.length = 1 := by
  induction l with
  | nil => simp at h
  | cons a l ih =>
    by_cases ha : a.connections.length = 1
    · exact ⟨[], a, l, by simp, by simp, ha⟩
    · have h2 : ∃ s ∈ l, s.connections.length = 1 := by
        obtain ⟨s, hs, hs1⟩ := h
        rcases List.mem_cons.mp hs with rfl | hmem
        · exact absurd hs1 ha
        · exact ⟨s, hmem, hs1⟩
      obtain ⟨pre, s, rest, hl, hpre, hs⟩ := ih h2
      refine ⟨a :: pre, s, rest, by simp [hl], ?_, hs⟩
      intro t ht
      rcases List.mem_cons.mp ht with rfl | hmem
      · exact ha
      · exact hpre t hmem

/-- The pair at which a list splits is at the position given by the length of the
part before it. -/
theorem getElem?_split {α : Type} (pre : List α) (s : α) (rest : List α) :
    (pre ++ s :: rest)[pre.length]? = some s := by
  rw [List.getElem?_append_right (Nat.le_refl _)]
  simp

/-- Result of the pairing operation when the registry splits at its first pair
with one seated participant. -/
theorem getConnectionPairWithEmptySlot_split (gs0 : gameState σ ρ)
    (pre : List (connectionPair σ ρ)) (s : connectionPair σ ρ)
    (rest : List (connectionPair σ ρ))
    (hpre : ∀ t ∈ pre, t.connections.length ≠ 1) (hs : s.connections.length = 1) :
    getConnectionPairWithEmptySlot gs0 (pre ++ s :: rest) =
      (pre ++ s :: rest, pre.length, 1) := by
  have := findPair_split pre s rest 0 hpre hs
  simp [getConnectionPairWithEmptySlot, this]

/-- Result of the pairing operation when no pair has one seated participant. -/
theorem getConnectionPairWithEmptySlot_none (gs0 : gameState σ ρ)
    (reg : List (connectionPair σ ρ)) (h : ∀ s ∈ reg, s.connections.length ≠ 1) :
    getConnectionPairWithEmptySlot gs0 reg =
      (reg ++ [newConnectionPair gs0], reg.length, 0) := by
  have := (findPair_eq_none reg 0).mpr h
  simp [getConnectionPairWithEmptySlot, this]

end Scan

/-! ## The pairing operation: claims C1, C2 and C10 -/

section Pairing

variable {σ ρ : Type}

/-- C1. When some session of the registry has exactly one seated participant,
`getConnectionPairWithEmptySlot` leaves the registry as it is and returns the
session at the lowest position among those with exactly one seated participant,
with slot 1. In particular, of two sessions `S1`, `S2` with one occupant each,
`S1` created first, it returns `S1`. -/
theorem getConnectionPairWithEmptySlot_first_fit (gs0 : gameState σ ρ) :
    (∀ reg : List (connectionPair σ ρ), (∃ s ∈ reg, s.connections.length = 1) →
      ∃ i s, getConnectionPairWithEmptySlot gs0 reg = (reg, i, 1) ∧
        reg[i]? = some s ∧ s.connections.length = 1 ∧
        ∀ j t, j < i → reg[j]? = some t → t.connections.length ≠ 1) ∧
    (∀ S1 S2 : connectionPair σ ρ, S1.connections.length = 1 →
      S2.connections.length = 1 →
      getConnectionPairWithEmptySlot gs0 [S1, S2] = ([S1, S2], 0, 1)) := by
  constructor
  · intro reg h
    obtain ⟨pre, s, rest, hl, hpre, hs⟩ := exists_first_single reg h
    subst hl
    refine ⟨pre.length, s, getConnectionPairWithEmptySlot_split gs0 pre s rest hpre hs,
      getElem?_split pre s rest, hs, ?_⟩
    intro j t hj ht
    rw [List.getElem?_append_left hj] at ht
    exact hpre t (List.getElem?_mem ht)
  · intro S1 S2 h1 _
    exact getConnectionPairWithEmptySlot_split gs0 [] S1 [S2] (by simp) h1

/-- Witness of C1 on the registry `[paired, S1, S2]`, `S1` and `S2` with one
seated participant each. -/
theorem getConnectionPairWithEmptySlot_first_fit_witness :
    (∃ s ∈ [paired 1, halfOpen 3 0, halfOpen 4 0], s.connections.length = 1) ∧
    (∃ i s, getConnectionPairWithEmptySlot sampleState
        [paired 1, halfOpen 3 0, halfOpen 4 0] =
          ([paired 1, halfOpen 3 0, halfOpen 4 0], i, 1) ∧
        [paired 1, halfOpen 3 0, halfOpen 4 0][i]? = some s ∧
        s.connections.length = 1 ∧
        ∀ j t, j < i → [paired 1, halfOpen 3 0, halfOpen 4 0][j]? = some t →
          t.connections.length ≠ 1) ∧
    getConnectionPairWithEmptySlot sampleState [halfOpen 3 0, halfOpen 4 0] =
      ([halfOpen 3 0, halfOpen 4 0], 0, 1) :=
  ⟨⟨halfOpen 3 0, by simp, rfl⟩,
   (getConnectionPairWithEmptySlot_first_fit sampleState).1 _
     ⟨halfOpen 3 0, by simp, rfl⟩,
   (getConnectionPairWithEmptySlot_first_fit sampleState).2 _ _ rfl rfl⟩

/-- C2. When no session of the registry has exactly one seated participant (the
empty registry, or only full and fully vacated sessions),
`getConnectionPairWithEmptySlot` appends exactly one session, with zero seated
participants, at the end of the registry and returns that session with slot 0. -/
theorem getConnectionPairWithEmptySlot_creates (gs0 : gameState σ ρ)
    (reg : List (connectionPair σ ρ)) (h : ∀ s ∈ reg, s.connections.length ≠ 1) :
    ∃ fresh, (getConnectionPairWithEmptySlot gs0 reg).1 = reg ++ [fresh] ∧
      fresh.connections.length = 0 ∧
      (getConnectionPairWithEmptySlot gs0 reg).2 = (reg.length, 0) ∧
      (getConnectionPairWithEmptySlot gs0 reg).1[reg.length]? = some fresh := by
  refine ⟨newConnectionPair gs0, ?_, rfl, ?_, ?_⟩ <;>
    simp [getConnectionPairWithEmptySlot_none gs0 reg h]

/-- Witness of C2 on a registry holding a full and a fully vacated session. -/
theorem getConnectionPairWithEmptySlot_creates_witness :
    (∀ s ∈ [paired 1, vacated], s.connections.length ≠ 1) ∧
    ∃ fresh, (getConnectionPairWithEmptySlot sampleState [paired 1, vacated]).1 =
        [paired 1, vacated] ++ [fresh] ∧
      fresh.connections.length = 0 ∧
      (getConnectionPairWithEmptySlot sampleState [paired 1, vacated]).2 =
        ([paired 1, vacated].length, 0) ∧
      (getConnectionPairWithEmptySlot sampleState [paired 1, vacated]).1[
        [paired 1, vacated].length]? = some fresh :=
  ⟨by decide, getConnectionPairWithEmptySlot_creates sampleState [paired 1, vacated]
    (by decide)⟩

/-- C10. `getConnectionPairWithEmptySlot` never removes, reorders or modifies a
session: the registry before the call is an initial segment of the registry after
it; the registry is unchanged whenever some session has exactly one seated
participant, so a session is created only when none has. -/
theorem getConnectionPairWithEmptySlot_frame (gs0 : gameState σ ρ)
    (reg : List (connectionPair σ ρ)) :
    reg <+: (getConnectionPairWithEmptySlot gs0 reg).1 ∧
    ((∃ s ∈ reg, s.connections.length = 1) →
      (getConnectionPairWithEmptySlot gs0 reg).1 = reg) ∧
    ((getConnectionPairWithEmptySlot gs0 reg).1 ≠ reg →
      ∀ s ∈ reg, s.connections.length ≠ 1) := by
  have key : (∃ s ∈ reg, s.connections.length = 1) →
      (getConnectionPairWithEmptySlot gs0 reg).1 = reg := by
    intro h
    obtain ⟨pre, s, rest, hl, hpre, hs⟩ := exists_first_single reg h
    subst hl
    rw [getConnectionPairWithEmptySlot_split gs0 pre s rest hpre hs]
  refine ⟨?_, key, ?_⟩
  · by_cases h : ∃ s ∈ reg, s.connections.length = 1
    · rw [key h]
    · have h2 : ∀ s ∈ reg, s.connections.length ≠ 1 := by
        intro s hs h1
        exact h ⟨s, hs, h1⟩
      rw [getConnectionPairWithEmptySlot_none gs0 reg h2]
      exact List.prefix_append _ _
  · intro hne s hs h1
    exact hne (key ⟨s, hs, h1⟩)

/-- Witness of C10 on a registry with one half-open session. -/
theorem getConnectionPairWithEmptySlot_frame_witness :
    (∃ s ∈ [paired 1, halfOpen 3 0], s.connections.length = 1) ∧
    (getConnectionPairWithEmptySlot sampleState [paired 1, halfOpen 3 0]).1 =
      [paired 1, halfOpen 3 0] :=
  ⟨⟨halfOpen 3 0, by simp, rfl⟩,
   (getConnectionPairWithEmptySlot_frame sampleState [paired 1, halfOpen 3 0]).2.1
     ⟨halfOpen 3 0, by simp, rfl⟩⟩

end Pairing

/-! ## The accept sequence -/

section Accept

variable {σ ρ : Type}

/-- A write through a pointer to the pair at which the registry splits. -/
theorem updateAt_split {α : Type} (pre : List α) (s : α) (rest : List α) (f : α → α) :
    updateAt (pre ++ s :: rest) pre.length f = pre ++ f s :: rest := by
  induction pre with
  | nil => simp [updateAt]
  | cons a pre ih => simp [updateAt, ih]

/-- Lines 102 to 104 when the pairing operation returns the pair at which the
registry it leaves behind splits. -/
theorem seat_split (E : Engine σ ρ) (d : Nat) (reg pre : List (connectionPair σ ρ))
    (s : connectionPair σ ρ) (rest : List (connectionPair σ ρ)) (pn : Nat)
    (h : getConnectionPairWithEmptySlot E.pairState reg =
      (pre ++ s :: rest, pre.length, pn)) :
    seat E d reg =
      (pre ++ addConnection s { doBroadcast := d, cp := pre.length, playerNum := pn }
        :: rest,
       { doBroadcast := d, cp := pre.length, playerNum := pn }) := by
  simp [seat, h, updateAt_split]

/-- The accept sequence when the pairing operation returns the pair at which the
registry it leaves behind splits. -/
theorem ServeHTTP_split [DecidableEq σ] (E : Engine σ ρ) (d : Nat)
    (reg pre : List (connectionPair σ ρ))
    (s : connectionPair σ ρ) (rest : List (connectionPair σ ρ)) (pn : Nat)
    (h : getConnectionPairWithEmptySlot E.pairState reg =
      (pre ++ s :: rest, pre.length, pn)) :
    ServeHTTP E true d reg =
      pre ++ informAddPlayer E (revive E
        (addConnection s { doBroadcast := d, cp := pre.length, playerNum := pn }))
        :: rest := by
  simp [ServeHTTP, seat_split E d reg pre s rest pn h, updateAt_split]

/-- The pairing operation always returns a pair of the registry it leaves
behind: that registry splits at the returned position. -/
theorem getConnectionPairWithEmptySlot_returns (gs0 : gameState σ ρ)
    (reg : List (connectionPair σ ρ)) :
    ∃ pre s rest pn, getConnectionPairWithEmptySlot gs0 reg =
      (pre ++ s :: rest, pre.length, pn) := by
  by_cases h : ∃ s ∈ reg, s.connections.length = 1
  · obtain ⟨pre, s, rest, hl, hpre, hs⟩ := exists_first_single reg h
    subst hl
    exact ⟨pre, s, rest, 1, getConnectionPairWithEmptySlot_split gs0 pre s rest hpre hs⟩
  · have h2 : ∀ s ∈ reg, s.connections.length ≠ 1 := by
      intro s hs h1
      exact h ⟨s, hs, h1⟩
    exact ⟨reg, newConnectionPair gs0, [], 0,
      getConnectionPairWithEmptySlot_none gs0 reg h2⟩

/-- Neither the revival nor `addPlayer` touches the seated participants. -/
theorem informAddPlayer_revive_connections [DecidableEq σ] (E : Engine σ ρ)
    (h : connectionPair σ ρ) :
    (informAddPlayer E (revive E h)).connections = h.connections := by
  unfold informAddPlayer revive
  split <;> rfl

/-- An accept into a registry of full sessions opens a new session at the end,
with the new participant alone in it. -/
theorem ServeHTTP_of_allFull [DecidableEq σ] (E : Engine σ ρ) (d : Nat)
    (reg : List (connectionPair σ ρ)) (h : AllFull reg) :
    HalfLast (ServeHTTP E true d reg) := by
  have hnone : ∀ s ∈ reg, s.connections.length ≠ 1 := by
    intro s hs h1
    have := h s hs
    omega
  have hget := getConnectionPairWithEmptySlot_none E.pairState reg hnone
  refine ⟨reg, _, ServeHTTP_split E d reg reg _ [] 0 hget, h, ?_⟩
  rw [informAddPlayer_revive_connections]
  simp [addConnection, newConnectionPair]

/-- An accept into a registry whose last session alone is half open fills that
session. -/
theorem ServeHTTP_of_halfLast [DecidableEq σ] (E : Engine σ ρ) (d : Nat)
    (reg : List (connectionPair σ ρ)) (h : HalfLast reg) :
    AllFull (ServeHTTP E true d reg) := by
  obtain ⟨pre, s, hreg, hpre, hs⟩ := h
  subst hreg
  have hne : ∀ t ∈ pre, t.connections.length ≠ 1 := by
    intro t ht h1
    have := hpre t ht
    omega
  have hget := getConnectionPairWithEmptySlot_split E.pairState pre s [] hne hs
  rw [ServeHTTP_split E d (pre ++ [s]) pre s [] 1 hget]
  intro t ht
  rcases List.mem_append.mp ht with hmem | hmem
  · exact hpre t hmem
  · have ht2 := List.mem_singleton.mp hmem
    subst ht2
    rw [informAddPlayer_revive_connections]
    simp [addConnection, hs]

/-- Sequential accepts alternate between the two shapes of the registry. -/
theorem acceptAll_shape [DecidableEq σ] (E : Engine σ ρ) (ds : List Nat) :
    ∀ reg : List (connectionPair σ ρ),
      (AllFull reg →
        (ds.length % 2 = 0 → AllFull (acceptAll E ds reg)) ∧
        (ds.length % 2 = 1 → HalfLast (acceptAll E ds reg))) ∧
      (HalfLast reg →
        (ds.length % 2 = 0 → HalfLast (acceptAll E ds reg)) ∧
        (ds.length % 2 = 1 → AllFull (acceptAll E ds reg))) := by
  induction ds with
  | nil =>
    intro reg
    simp [acceptAll]
  | cons d ds ih =>
    intro reg
    constructor
    · intro hfull
      have hnext := ServeHTTP_of_allFull E d reg hfull
      have := (ih (ServeHTTP E true d reg)).2 hnext
      constructor
      · intro hlen
        exact this.2 (by simp at hlen; omega)
      · intro hlen
        exact this.1 (by simp at hlen; omega)
    · intro hhalf
      have hnext := ServeHTTP_of_halfLast E d reg hhalf
      have := (ih (ServeHTTP E true d reg)).1 hnext
      constructor
      · intro hlen
        exact this.2 (by simp at hlen; omega)
      · intro hlen
        exact this.1 (by simp at hlen; omega)

/-- A registry of full sessions has no session with one seated participant. -/
theorem singles_of_allFull (reg : List (connectionPair σ ρ)) (h : AllFull reg) :
    singles reg = 0 := by
  unfold singles
  rw [List.length_eq_zero, List.filter_eq_nil_iff]
  intro t ht
  have := h t ht
  simp
  omega

/-- C4. Starting from the empty registry, along every sequence of sequential
accepts (each one `getConnectionPairWithEmptySlot` followed by the append of the
new participant to the returned session, no removal), no session ever holds more
than 2 participants, and after an even number of accepts at most one session
holds exactly 1 participant. -/
theorem acceptAll_pairing_invariant [DecidableEq σ] (E : Engine σ ρ) (ds : List Nat) :
    (∀ k, ∀ t ∈ acceptAll E (ds.take k) ([] : List (connectionPair σ ρ)),
      t.connections.length ≤ 2) ∧
    (ds.length % 2 = 0 →
      singles (acceptAll E ds ([] : List (connectionPair σ ρ))) ≤ 1) := by
  have hnil : AllFull ([] : List (connectionPair σ ρ)) := by
    intro t ht
    simp at ht
  constructor
  · intro k t ht
    have hshape := (acceptAll_shape E (ds.take k) []).1 hnil
    rcases Nat.mod_two_eq_zero_or_one (ds.take k).length with h0 | h1
    · have := hshape.1 h0 t ht
      omega
    · obtain ⟨pre, s, hreg, hpre, hs⟩ := hshape.2 h1
      rw [hreg] at ht
      rcases List.mem_append.mp ht with hmem | hmem
      · have := hpre t hmem
        omega
      · have ht2 := List.mem_singleton.mp hmem
        subst ht2
        omega
  · intro heven
    have := singles_of_allFull _ (((acceptAll_shape E ds []).1 hnil).1 heven)
    omega

/-- Witness of C4 on four accepts. -/
theorem acceptAll_pairing_invariant_witness :
    [10, 11, 12, 13].length % 2 = 0 ∧
    singles (acceptAll sampleEngine [10, 11, 12, 13] []) ≤ 1 :=
  ⟨by decide, (acceptAll_pairing_invariant sampleEngine [10, 11, 12, 13]).2 (by decide)⟩

/-- C6. In the accept sequence of `ServeHTTP`, with `s` the session once the new
participant has been added: when the status of its game state is
`resetWaitPaired`, the game state the session ends with is `addPlayer` of a
fresh `newGameState()` whose `numberOfPlayers` was set to 1; for any other status
it is `addPlayer` of the game state the session had. The seated participants are
those of `s` and no other session changes. -/
theorem ServeHTTP_revives [DecidableEq σ] (E : Engine σ ρ) (d : Nat)
    (reg : List (connectionPair σ ρ)) :
    ∃ s s2, (seat E d reg).1[(seat E d reg).2.cp]? = some s ∧
      (ServeHTTP E true d reg)[(seat E d reg).2.cp]? = some s2 ∧
      s2.connections = s.connections ∧
      (s.gs.StatusMessage = E.resetWaitPaired →
        s2.gs = E.addPlayer { E.newGameState with numberOfPlayers := 1 }) ∧
      (s.gs.StatusMessage ≠ E.resetWaitPaired → s2.gs = E.addPlayer s.gs) ∧
      (∀ j, j ≠ (seat E d reg).2.cp →
        (ServeHTTP E true d reg)[j]? = (seat E d reg).1[j]?) := by
  obtain ⟨pre, s0, rest, pn, hget⟩ := getConnectionPairWithEmptySlot_returns E.pairState reg
  rw [ServeHTTP_split E d reg pre s0 rest pn hget, seat_split E d reg pre s0 rest pn hget]
  refine ⟨_, _, getElem?_split pre _ rest, getElem?_split pre _ rest,
    informAddPlayer_revive_connections E _, ?_, ?_, ?_⟩
  · intro hst
    simp only [informAddPlayer, revive, hst, if_true]
  · intro hst
    simp only [informAddPlayer, revive, hst, if_false]
  · intro j hj
    simp only at hj
    rcases Nat.lt_or_gt_of_ne hj with hlt | hgt
    · rw [List.getElem?_append_left hlt, List.getElem?_append_left hlt]
    · rw [List.getElem?_append_right (Nat.le_of_lt hgt),
        List.getElem?_append_right (Nat.le_of_lt hgt)]
      obtain ⟨m, hm⟩ : ∃ m, j - pre.length = m + 1 := ⟨j - pre.length - 1, by omega⟩
      rw [hm]
      simp

/-- Witness of C6: a third participant joins a session whose status is the
sentinel 7 after a drop-out, and a second participant joins a session whose
status is not the sentinel. -/
theorem ServeHTTP_revives_witness :
    ServeHTTP sampleEngine true 12
      [{ connections := [{ doBroadcast := 10, cp := 0, playerNum := 0 }],
         gs := { StatusMessage := 7, numberOfPlayers := 1, other := () } }] =
      [{ connections := [{ doBroadcast := 10, cp := 0, playerNum := 0 },
                         { doBroadcast := 12, cp := 0, playerNum := 1 }],
         gs := { StatusMessage := 1, numberOfPlayers := 2, other := () } }] ∧
    ServeHTTP sampleEngine true 12
      [{ connections := [{ doBroadcast := 10, cp := 0, playerNum := 0 }],
         gs := { StatusMessage := 3, numberOfPlayers := 1, other := () } }] =
      [{ connections := [{ doBroadcast := 10, cp := 0, playerNum := 0 },
                         { doBroadcast := 12, cp := 0, playerNum := 1 }],
         gs := { StatusMessage := 3, numberOfPlayers := 2, other := () } }] ∧
    ∃ s s2, (seat sampleEngine 12 [halfOpen 10 0]).1[
        (seat sampleEngine 12 [halfOpen 10 0]).2.cp]? = some s ∧
      (ServeHTTP sampleEngine true 12 [halfOpen 10 0])[
        (seat sampleEngine 12 [halfOpen 10 0]).2.cp]? = some s2 ∧
      s2.connections = s.connections ∧
      (s.gs.StatusMessage = sampleEngine.resetWaitPaired →
        s2.gs = sampleEngine.addPlayer
          { sampleEngine.newGameState with numberOfPlayers := 1 }) ∧
      (s.gs.StatusMessage ≠ sampleEngine.resetWaitPaired →
        s2.gs = sampleEngine.addPlayer s.gs) ∧
      (∀ j, j ≠ (seat sampleEngine 12 [halfOpen 10 0]).2.cp →
        (ServeHTTP sampleEngine true 12 [halfOpen 10 0])[j]? =
          (seat sampleEngine 12 [halfOpen 10 0]).1[j]?) :=
  ⟨by decide, by decide, ServeHTTP_revives sampleEngine 12 [halfOpen 10 0]⟩

end Accept

/-! ## Re-pairing after a removal: claim C3 -/

section Repair

variable {σ ρ : Type}

/-- Removing one of two distinct seated participants leaves the other one. -/
theorem removeConnection_of_two (s : connectionPair σ ρ) (a b r : connection)
    (hs : s.connections = [a, b]) (hab : a ≠ b) (hr : r = a ∨ r = b) :
    (removeConnection s r).connections.length = 1 := by
  rcases hr with rfl | rfl
  · simp [removeConnection, hs, Ne.symm hab]
  · simp [removeConnection, hs, hab]

/-- C3, as the code has it. Take a session with two seated participants such that
no session before it in the registry has exactly one seated participant. After
either of the two is removed, the next `getConnectionPairWithEmptySlot` leaves the
registry as it is and returns that same session, with slot 1 whichever
participant was removed. -/
theorem getConnectionPairWithEmptySlot_after_removal (gs0 : gameState σ ρ)
    (pre : List (connectionPair σ ρ)) (s : connectionPair σ ρ)
    (rest : List (connectionPair σ ρ)) (a b r : connection)
    (hs : s.connections = [a, b]) (hab : a ≠ b) (hr : r = a ∨ r = b)
    (hpre : ∀ t ∈ pre, t.connections.length ≠ 1) :
    getConnectionPairWithEmptySlot gs0
        (updateAt (pre ++ s :: rest) pre.length (fun h => removeConnection h r)) =
      (updateAt (pre ++ s :: rest) pre.length (fun h => removeConnection h r),
        pre.length, 1) ∧
    (updateAt (pre ++ s :: rest) pre.length (fun h => removeConnection h r))[
        pre.length]? = some (removeConnection s r) := by
  rw [updateAt_split]
  exact ⟨getConnectionPairWithEmptySlot_split gs0 pre _ rest hpre
    (removeConnection_of_two s a b r hs hab hr), getElem?_split pre _ rest⟩

/-- Witness of the amended C3: the participant in slot 0 of the second session
is removed, the first session being full. -/
theorem getConnectionPairWithEmptySlot_after_removal_witness :
    getConnectionPairWithEmptySlot sampleState
        (updateAt ([paired 1] ++ paired 5 :: [vacated]) [paired 1].length
          (fun h => removeConnection h { doBroadcast := 5, cp := 0, playerNum := 0 })) =
      (updateAt ([paired 1] ++ paired 5 :: [vacated]) [paired 1].length
          (fun h => removeConnection h { doBroadcast := 5, cp := 0, playerNum := 0 }),
        [paired 1].length, 1) ∧
    (updateAt ([paired 1] ++ paired 5 :: [vacated]) [paired 1].length
          (fun h => removeConnection h { doBroadcast := 5, cp := 0, playerNum := 0 }))[
        [paired 1].length]? =
      some (removeConnection (paired 5) { doBroadcast := 5, cp := 0, playerNum := 0 }) :=
  getConnectionPairWithEmptySlot_after_removal sampleState [paired 1] (paired 5) [vacated]
    { doBroadcast := 5, cp := 0, playerNum := 0 }
    { doBroadcast := 6, cp := 0, playerNum := 1 }
    { doBroadcast := 5, cp := 0, playerNum := 0 } rfl (by decide) (Or.inl rfl) (by decide)

/-- C3 fails as stated, in both of its parts. (1) The slot: in the registry
`[paired 1]` the participant in slot 0 is removed, and the next call returns
slot 1, not the freed slot 0. (2) The session: in the registry
`[halfOpen 7 0, paired 1]` the participant in slot 1 of the second session is
removed, and the next call returns the first session, not the one that lost a
participant. -/
theorem freed_seat_counterexample :
    (¬ ∀ (reg : List (connectionPair Nat Unit)) (i : Nat) (s : connectionPair Nat Unit)
        (a b r : connection),
        reg[i]? = some s → s.connections = [a, b] → a.playerNum = 0 → b.playerNum = 1 →
        (r = a ∨ r = b) →
        (getConnectionPairWithEmptySlot sampleState
          (updateAt reg i (fun h => removeConnection h r))).2.2 = r.playerNum) ∧
    (¬ ∀ (reg : List (connectionPair Nat Unit)) (i : Nat) (s : connectionPair Nat Unit)
        (a b r : connection),
        reg[i]? = some s → s.connections = [a, b] → a.playerNum = 0 → b.playerNum = 1 →
        (r = a ∨ r = b) →
        (getConnectionPairWithEmptySlot sampleState
          (updateAt reg i (fun h => removeConnection h r))).2.1 = i) := by
  constructor
  · intro h
    have h1 := h [paired 1] 0 (paired 1)
      { doBroadcast := 1, cp := 0, playerNum := 0 }
      { doBroadcast := 2, cp := 0, playerNum := 1 }
      { doBroadcast := 1, cp := 0, playerNum := 0 } rfl rfl rfl rfl (Or.inl rfl)
    revert h1
    decide
  · intro h
    have h1 := h [halfOpen 7 0, paired 1] 1 (paired 1)
      { doBroadcast := 1, cp := 0, playerNum := 0 }
      { doBroadcast := 2, cp := 0, playerNum := 1 }
      { doBroadcast := 2, cp := 0, playerNum := 1 } rfl rfl rfl rfl (Or.inr rfl)
    revert h1
    decide

end Repair


/-! ## The reader loop: claims C8 and C9 -/

section Reader

/-- The loop over payloads that all parse, followed by anything. -/
theorem reader_append (Unmarshal : String → Option messagePtr)
    (payloads : List String) (msgs : List messagePtr) (rest : List ReadResult)
    (hparse : payloads.map Unmarshal = msgs.map some) :
    reader Unmarshal (payloads.map ReadResult.message ++ rest) =
      (recordedAndNotified msgs ++ (reader Unmarshal rest).1,
        (reader Unmarshal rest).2) := by
  induction payloads generalizing msgs with
  | nil =>
    cases msgs with
    | nil => simp [recordedAndNotified]
    | cons m ms => simp at hparse
  | cons p ps ih =>
    cases msgs with
    | nil => simp at hparse
    | cons m ms =>
      simp only [List.map_cons, List.cons.injEq] at hparse
      have := ih ms hparse.2
      simp [reader, hparse.1, this, recordedAndNotified]

/-- C8. For every sequence of read results in which the payloads read parse, the
messages passed to `recordMove` are the messages read before the first transport
error, in the order of delivery, each `recordMove` is followed at once by one
send on `receiveMove`, and the loop terminates at the first transport error with
nothing recorded or notified afterwards. Without a transport error the loop has
done the same for every payload and is waiting in `ReadMessage`. -/
theorem reader_records_in_order (Unmarshal : String → Option messagePtr)
    (payloads : List String) (msgs : List messagePtr) (rest : List ReadResult)
    (hparse : payloads.map Unmarshal = msgs.map some) :
    reader Unmarshal (payloads.map ReadResult.message ++ ReadResult.error :: rest) =
      (recordedAndNotified msgs, ReaderExit.terminated) ∧
    reader Unmarshal (payloads.map ReadResult.message) =
      (recordedAndNotified msgs, ReaderExit.reading) := by
  constructor
  · rw [reader_append Unmarshal payloads msgs _ hparse]
    simp [reader]
  · have := reader_append Unmarshal payloads msgs [] hparse
    simpa [reader] using this

/-- C9. A payload that was read without transport error and fails to parse makes
the reader panic, with neither `recordMove` nor a send on `receiveMove` for that
payload or anything after it; and the reader panics only there: a run that ends
in a panic stopped at a payload that does not parse, so when the payloads parse
there is no panic. -/
theorem reader_panics_on_malformed (Unmarshal : String → Option messagePtr) :
    (∀ (payloads : List String) (msgs : List messagePtr) (p : String)
        (rest : List ReadResult),
        payloads.map Unmarshal = msgs.map some → Unmarshal p = none →
        reader Unmarshal (payloads.map ReadResult.message ++ ReadResult.message p :: rest) =
          (recordedAndNotified msgs, ReaderExit.panicked)) ∧
    (∀ reads : List ReadResult, (reader Unmarshal reads).2 = ReaderExit.panicked →
        ∃ (payloads : List String) (msgs : List messagePtr) (p : String)
          (rest : List ReadResult),
          reads = payloads.map ReadResult.message ++ ReadResult.message p :: rest ∧
          payloads.map Unmarshal = msgs.map some ∧ Unmarshal p = none) ∧
    (∀ reads : List ReadResult,
        (∀ p, ReadResult.message p ∈ reads → Unmarshal p ≠ none) →
        (reader Unmarshal reads).2 ≠ ReaderExit.panicked) := by
  have hconv : ∀ reads : List ReadResult,
      (reader Unmarshal reads).2 = ReaderExit.panicked →
        ∃ (payloads : List String) (msgs : List messagePtr) (p : String)
          (rest : List ReadResult),
          reads = payloads.map ReadResult.message ++ ReadResult.message p :: rest ∧
          payloads.map Unmarshal = msgs.map some ∧ Unmarshal p = none := by
    intro reads
    induction reads with
    | nil => simp [reader]
    | cons r rs ih =>
      cases r with
      | error => simp [reader]
      | message p =>
        cases hp : Unmarshal p with
        | none =>
          intro _
          exact ⟨[], [], p, rs, by simp, by simp, hp⟩
        | some m =>
          intro hpanic
          simp only [reader, hp] at hpanic
          obtain ⟨ps, ms, q, rest, hrs, hmap, hq⟩ := ih hpanic
          exact ⟨p :: ps, m :: ms, q, rest, by simp [hrs], by simp [hp, hmap], hq⟩
  refine ⟨?_, hconv, ?_⟩
  · intro payloads msgs p rest hparse hp
    rw [reader_append Unmarshal payloads msgs _ hparse]
    simp [reader, hp]
  · intro reads hall hpanic
    obtain ⟨ps, ms, q, rest, hrs, _, hq⟩ := hconv reads hpanic
    exact hall q (by simp [hrs]) hq

/-- Witness of C8: two moves are read, then the transport fails. -/
theorem reader_records_in_order_witness :
    ["3", "4"].map sampleUnmarshal =
      [some { Type_ := "move", Data := "3", ID := 1 },
       some { Type_ := "move", Data := "4", ID := 1 }].map some ∧
    reader sampleUnmarshal
        (["3", "4"].map ReadResult.message ++ ReadResult.error :: [ReadResult.message "5"]) =
      (recordedAndNotified
        [some { Type_ := "move", Data := "3", ID := 1 },
         some { Type_ := "move", Data := "4", ID := 1 }], ReaderExit.terminated) ∧
    reader sampleUnmarshal (["3", "4"].map ReadResult.message) =
      (recordedAndNotified
        [some { Type_ := "move", Data := "3", ID := 1 },
         some { Type_ := "move", Data := "4", ID := 1 }], ReaderExit.reading) :=
  ⟨by decide, reader_records_in_order sampleUnmarshal ["3", "4"] _
    [ReadResult.message "5"] (by decide)⟩

/-- Witness of C9: a move is read, then an empty payload, which does not parse. -/
theorem reader_panics_on_malformed_witness :
    ["3"].map sampleUnmarshal = [some { Type_ := "move", Data := "3", ID := 1 }].map some ∧
    sampleUnmarshal "" = none ∧
    reader sampleUnmarshal
        (["3"].map ReadResult.message ++ ReadResult.message "" :: [ReadResult.message "5"]) =
      (recordedAndNotified [some { Type_ := "move", Data := "3", ID := 1 }],
        ReaderExit.panicked) ∧
    (∀ p, ReadResult.message p ∈ [ReadResult.message "3", ReadResult.error] →
      sampleUnmarshal p ≠ none) ∧
    (reader sampleUnmarshal [ReadResult.message "3", ReadResult.error]).2 ≠
      ReaderExit.panicked :=
  ⟨by decide, by decide,
   (reader_panics_on_malformed sampleUnmarshal).1 ["3"] _ "" [ReadResult.message "5"]
     (by decide) (by decide),
   (fun p hp => by simp at hp; subst hp; decide),
   (reader_panics_on_malformed sampleUnmarshal).2.2
     [ReadResult.message "3", ReadResult.error]
     (fun p hp => by simp at hp; subst hp; decide)⟩

end Reader

/-! ## The writer loop: claim C5 -/

section Writer

end Writer

/-! ## Two calls in flight: claim C7 -/

section Interleaving

variable {σ ρ : Type}

/-- Over a registry that splits at its first session with one seated participant,
every statement of a call moves it one state along `walk` and leaves the registry
as it is. -/
theorem stepCaller_walk (gs0 : gameState σ ρ) (pre : List (connectionPair σ ρ))
    (s : connectionPair σ ρ) (rest : List (connectionPair σ ρ))
    (hpre : ∀ t ∈ pre, t.connections.length ≠ 1) (hs : s.connections.length = 1)
    (k : Nat) :
    stepCaller gs0 (pre ++ s :: rest)
        (walk σ ρ (pre ++ s :: rest).length pre.length k) =
      (pre ++ s :: rest, walk σ ρ (pre ++ s :: rest).length pre.length (k + 1)) := by
  have hlen : pre.length < (pre ++ s :: rest).length := by simp
  by_cases h0 : k = 0
  · subst h0
    simp [walk, stepCaller]
  by_cases h1 : k = 1
  · subst h1
    simp [walk, stepCaller]
  by_cases h2 : k ≤ pre.length + 2
  · have hw : walk σ ρ (pre ++ s :: rest).length pre.length k =
        Caller.ranging (pre ++ s :: rest).length (pre ++ s :: rest).length (k - 2) := by
      simp [walk, h0, h1, h2]
    rw [hw]
    by_cases h3 : k - 2 < pre.length
    · obtain ⟨t, ht⟩ : ∃ t, pre[k - 2]? = some t :=
        ⟨pre[k - 2], List.getElem?_eq_getElem h3⟩
      have hreg : (pre ++ s :: rest)[k - 2]? = some t := by
        rw [List.getElem?_append_left h3, ht]
      have hne := hpre t (List.getElem?_mem ht)
      have hw2 : walk σ ρ (pre ++ s :: rest).length pre.length (k + 1) =
          Caller.ranging (pre ++ s :: rest).length (pre ++ s :: rest).length (k - 2 + 1) := by
        have : k + 1 ≤ pre.length + 2 := by omega
        have h5 : k + 1 - 2 = k - 2 + 1 := by omega
        simp [walk, this, h5, h0]
      rw [hw2]
      have hlt : k - 2 < (pre ++ s :: rest).length := by omega
      simp only [stepCaller, hlt, if_true, hreg, hne, if_false]
    · have hk : k - 2 = pre.length := by omega
      have hw2 : walk σ ρ (pre ++ s :: rest).length pre.length (k + 1) =
          Caller.found pre.length := by
        have h5 : ¬ k + 1 ≤ pre.length + 2 := by omega
        have h6 : k + 1 = pre.length + 3 := by omega
        simp [walk, h5, h6]
      rw [hw2, hk]
      simp only [stepCaller, hlen, if_true, getElem?_split, hs]
  by_cases h3 : k = pre.length + 3
  · subst h3
    have hw : walk σ ρ (pre ++ s :: rest).length pre.length (pre.length + 3) =
        Caller.found pre.length := by
      simp [walk]
    have hw2 : walk σ ρ (pre ++ s :: rest).length pre.length (pre.length + 3 + 1) =
        Caller.done pre.length 1 := by
      simp [walk]
    rw [hw, hw2]
    simp only [stepCaller, getElem?_split, hs]
  · have hw : walk σ ρ (pre ++ s :: rest).length pre.length k =
        Caller.done pre.length 1 := by
      simp [walk, h0, h1, h2, h3]
    have hw2 : walk σ ρ (pre ++ s :: rest).length pre.length (k + 1) =
        Caller.done pre.length 1 := by
      have h5 : ¬ k + 1 ≤ pre.length + 2 := by omega
      have h6 : ¬ k + 1 = pre.length + 3 := by omega
      have h7 : ¬ k = 0 := h0
      simp [walk, h5, h6, h7]
    rw [hw, hw2]
    simp [stepCaller]

/-- Under every schedule each of the two calls is as far along `walk` as the
number of statements the schedule gave it, and the registry is as it was. -/
theorem runTwo_walk (gs0 : gameState σ ρ) (pre : List (connectionPair σ ρ))
    (s : connectionPair σ ρ) (rest : List (connectionPair σ ρ))
    (hpre : ∀ t ∈ pre, t.connections.length ≠ 1) (hs : s.connections.length = 1)
    (sched : List Bool) (a b : Nat) :
    runTwo gs0 sched
        { connections := pre ++ s :: rest,
          first := walk σ ρ (pre ++ s :: rest).length pre.length a,
          second := walk σ ρ (pre ++ s :: rest).length pre.length b } =
      { connections := pre ++ s :: rest,
        first := walk σ ρ (pre ++ s :: rest).length pre.length (a + sched.count false),
        second := walk σ ρ (pre ++ s :: rest).length pre.length (b + sched.count true) } := by
  induction sched generalizing a b with
  | nil => simp [runTwo]
  | cons c sched ih =>
    cases c with
    | false =>
      have hc : a + 1 + sched.count false = a + (false :: sched).count false := by
        simp [List.count_cons]
        omega
      have hd : sched.count true = (false :: sched).count true := by
        simp [List.count_cons]
      simp only [runTwo, stepCaller_walk gs0 pre s rest hpre hs a]
      rw [ih (a + 1) b, hc, hd]
    | true =>
      have hc : b + 1 + sched.count true = b + (true :: sched).count true := by
        simp [List.count_cons]
        omega
      have hd : sched.count false = (true :: sched).count false := by
        simp [List.count_cons]
      simp only [runTwo, stepCaller_walk gs0 pre s rest hpre hs b]
      rw [ih a (b + 1), hc, hd]

/-- A call that is along `walk` and has returned has returned the first session
with one seated participant, with slot 1. -/
theorem walk_done (len f k cp slot : Nat)
    (h : walk σ ρ len f k = Caller.done cp slot) : cp = f ∧ slot = 1 := by
  unfold walk at h
  split at h
  · cases h
  split at h
  · cases h
  split at h
  · cases h
  split at h
  · cases h
  · cases h
    exact ⟨rfl, rfl⟩

/-- A call that was given enough statements has returned. -/
theorem walk_of_le (len f k : Nat) (h : f + 4 ≤ k) :
    walk σ ρ len f k = Caller.done f 1 := by
  have h0 : ¬ k = 0 := by omega
  have h1 : ¬ k = 1 := by omega
  have h2 : ¬ k ≤ f + 2 := by omega
  have h3 : ¬ k = f + 3 := by omega
  simp [walk, h0, h1, h2, h3]

/-- C7, as the code has it. Take a registry in which some session has exactly one
seated participant, and two calls of `getConnectionPairWithEmptySlot` interleaved
statement by statement in any order. Neither call creates a session (the registry
stays as it is), and each call that returns is assigned slot 1 of the same
session, the first one with exactly one seated participant, which is what a
single call returns; both calls have returned once the schedule has given each
of them as many statements as the registry has sessions, plus three. -/
theorem runTwo_open_seat (gs0 : gameState σ ρ) (reg : List (connectionPair σ ρ))
    (h : ∃ s ∈ reg, s.connections.length = 1) (sched : List Bool) :
    ∃ i, getConnectionPairWithEmptySlot gs0 reg = (reg, i, 1) ∧
      (runTwo gs0 sched
        { connections := reg, first := Caller.start, second := Caller.start }).connections
        = reg ∧
      (∀ cp slot, (runTwo gs0 sched
          { connections := reg, first := Caller.start, second := Caller.start }).first
          = Caller.done cp slot → cp = i ∧ slot = 1) ∧
      (∀ cp slot, (runTwo gs0 sched
          { connections := reg, first := Caller.start, second := Caller.start }).second
          = Caller.done cp slot → cp = i ∧ slot = 1) ∧
      (reg.length + 3 ≤ sched.count false → reg.length + 3 ≤ sched.count true →
        runTwo gs0 sched
          { connections := reg, first := Caller.start, second := Caller.start } =
          { connections := reg, first := Caller.done i 1, second := Caller.done i 1 }) := by
  obtain ⟨pre, s, rest, hl, hpre, hs⟩ := exists_first_single reg h
  subst hl
  have hrun := runTwo_walk gs0 pre s rest hpre hs sched 0 0
  have hstart : walk σ ρ (pre ++ s :: rest).length pre.length 0 = Caller.start := by
    simp [walk]
  rw [hstart] at hrun
  refine ⟨pre.length, getConnectionPairWithEmptySlot_split gs0 pre s rest hpre hs, ?_, ?_, ?_,
    ?_⟩
  · rw [hrun]
  · intro cp slot hdone
    rw [hrun] at hdone
    exact walk_done _ _ _ cp slot hdone
  · intro cp slot hdone
    rw [hrun] at hdone
    exact walk_done _ _ _ cp slot hdone
  · intro h1 h2
    have hlen : (pre ++ s :: rest).length = pre.length + rest.length + 1 := by
      simp
      omega
    rw [hrun, walk_of_le _ _ _ (by omega), walk_of_le _ _ _ (by omega)]

/-- Witness of the amended C7: the two calls alternate over a registry whose
second session has one seated participant. -/
theorem runTwo_open_seat_witness :
    (∃ s ∈ [paired 1, halfOpen 3 0], s.connections.length = 1) ∧
    ∃ i, getConnectionPairWithEmptySlot sampleState [paired 1, halfOpen 3 0] =
        ([paired 1, halfOpen 3 0], i, 1) ∧
      (runTwo sampleState [false, true, false, true, false, true, false, true, false, true]
        { connections := [paired 1, halfOpen 3 0], first := Caller.start,
          second := Caller.start }).connections = [paired 1, halfOpen 3 0] ∧
      (∀ cp slot, (runTwo sampleState
          [false, true, false, true, false, true, false, true, false, true]
          { connections := [paired 1, halfOpen 3 0], first := Caller.start,
            second := Caller.start }).first = Caller.done cp slot → cp = i ∧ slot = 1) ∧
      (∀ cp slot, (runTwo sampleState
          [false, true, false, true, false, true, false, true, false, true]
          { connections := [paired 1, halfOpen 3 0], first := Caller.start,
            second := Caller.start }).second = Caller.done cp slot → cp = i ∧ slot = 1) ∧
      ([paired 1, halfOpen 3 0].length + 3 ≤
          [false, true, false, true, false, true, false, true, false, true].count false →
        [paired 1, halfOpen 3 0].length + 3 ≤
          [false, true, false, true, false, true, false, true, false, true].count true →
        runTwo sampleState [false, true, false, true, false, true, false, true, false, true]
          { connections := [paired 1, halfOpen 3 0], first := Caller.start,
            second := Caller.start } =
          { connections := [paired 1, halfOpen 3 0], first := Caller.done i 1,
            second := Caller.done i 1 }) :=
  ⟨⟨halfOpen 3 0, by simp, rfl⟩,
   runTwo_open_seat sampleState [paired 1, halfOpen 3 0] ⟨halfOpen 3 0, by simp, rfl⟩
     [false, true, false, true, false, true, false, true, false, true]⟩

/-- C7 fails as stated: over the registry `[halfOpen 3 0]`, two calls (here
alternating statement by statement, the same holds when one runs after the
other) are both assigned slot 1 of the same session. -/
theorem both_slot_one_counterexample :
    (¬ ∀ (reg : List (connectionPair Nat Unit)) (sched : List Bool)
        (cp1 slot1 cp2 slot2 : Nat),
        (runTwo sampleState sched
          { connections := reg, first := Caller.start, second := Caller.start }).first
          = Caller.done cp1 slot1 →
        (runTwo sampleState sched
          { connections := reg, first := Caller.start, second := Caller.start }).second
          = Caller.done cp2 slot2 →
        ¬ (cp1 = cp2 ∧ slot1 = 1 ∧ slot2 = 1)) ∧
    runTwo sampleState [false, false, false, false, true, true, true, true]
        { connections := [halfOpen 3 0], first := Caller.start, second := Caller.start } =
      { connections := [halfOpen 3 0], first := Caller.done 0 1,
        second := Caller.done 0 1 } ∧
    (getConnectionPairWithEmptySlot sampleState
      (getConnectionPairWithEmptySlot sampleState [halfOpen 3 0]).1).2 =
      (getConnectionPairWithEmptySlot sampleState [halfOpen 3 0]).2 := by
  refine ⟨?_, by decide, by decide⟩
  intro h
  have h1 := h [halfOpen 3 0] [false, true, false, true, false, true, false, true]
    0 1 0 1 (by decide) (by decide)
  exact h1 ⟨rfl, rfl, rfl⟩

end Interleaving

end Waffles
